import Mathlib

/-!
Shallow embedding of the UAT authentication flow of the setup wizard
(`src/wizard/src/lib/setup.ts`, mirrored in `src/unnamed/part_007`).

The embedding models:
* `createVerifierAndChallenge` — verifier/challenge generation
  (`randomBytes(32).toString('hex')` and `createHash('sha256')...digest('hex')`);
  the SHA-256 primitive itself is external library code (`node:crypto`) and is
  taken as an abstract function parameter, while hex encoding is concrete;
* `fetchWithRetry` — the bounded retry loop over a trace of per-attempt
  outcomes (a thrown transport fault or a returned HTTP response);
* the confirmation-polling loop of `authenticateWithUat` (5000 ms sleep per
  iteration, 300000 ms wall-clock deadline), over a trace of check outcomes
  at the granularity of one `fetchWithRetry` call per iteration;
* `authenticateWithUat` itself, as a function of an environment that fixes
  the collaborators' behaviour (random bytes, hash, browser open, check
  responses, get_orgs / get_keys responses, the user's selection), returning
  the `Except`-valued body together with the list of outbound requests and
  prompts it performed, wrapped by the top-level catch into an `Option`.

JavaScript specifics are modelled explicitly: `Buffer.from(hexString)`
is byte-wise ASCII on these inputs, `base64url` is unpadded, `parseInt`
takes an optional sign and the longest digit prefix, a missing or empty
string field is falsy.
-/

/-- Timeout of the confirmation-polling loop: `300 * 1000` ms in the source. -/
def timeoutMs : Nat := 300000

/-- Sleep between confirmation polls: `sleep(5000)` in the source. -/
def pollIntervalMs : Nat := 5000

/-- Default try count of `fetchWithRetry` (`tries: number = 2`). -/
def retryTries : Nat := 2

/-- Default delay of `fetchWithRetry` (`delayMs: number = 1000`). -/
def retryDelayMs : Nat := 1000

/-- Lower-case hex digit, as produced by Node's `toString('hex')`. -/
def hexDigitChar (n : Nat) : Char :=
  if n < 10 then Char.ofNat (48 + n) else Char.ofNat (87 + n)

/-- Hex encoding of a byte list, two characters per byte. -/
def hexChars : List Nat → List Char
  | [] => []
  | b :: bs => hexDigitChar (b / 16) :: hexDigitChar (b % 16) :: hexChars bs

/-- Model of `Buffer.toString('hex')` on a byte list. -/
def hexEncode (bs : List Nat) : String := ⟨hexChars bs⟩

/-- Character class of lower-case hex output. -/
def isHexDigitChar (c : Char) : Bool :=
  c.isDigit || ((97 ≤ c.toNat) && (c.toNat ≤ 102))

/-- Alphabet of base64url: `A-Z`, `a-z`, `0-9`, `-`, `_`. -/
def b64UrlChar (n : Nat) : Char :=
  if n < 26 then Char.ofNat (65 + n)
  else if n < 52 then Char.ofNat (97 + (n - 26))
  else if n < 62 then Char.ofNat (48 + (n - 52))
  else if n = 62 then Char.ofNat 45
  else Char.ofNat 95

/-- Unpadded base64url of a byte list, as produced by Node's
`Buffer.toString('base64url')`: 3 input bytes map to 4 output characters,
trailing groups of 1 or 2 bytes to 2 or 3 characters. -/
def b64UrlChunks : List Nat → List Char
  | [] => []
  | [b1] => [b64UrlChar (b1 / 4), b64UrlChar (b1 % 4 * 16)]
  | [b1, b2] =>
    [b64UrlChar (b1 / 4), b64UrlChar (b1 % 4 * 16 + b2 / 16),
     b64UrlChar (b2 % 16 * 4)]
  | b1 :: b2 :: b3 :: rest =>
    b64UrlChar (b1 / 4) :: b64UrlChar (b1 % 4 * 16 + b2 / 16) ::
    b64UrlChar (b2 % 16 * 4 + b3 / 64) :: b64UrlChar (b3 % 64) ::
    b64UrlChunks rest

/-- Model of `Buffer.from(s).toString('base64url')` for ASCII strings
(every string so encoded in the flow is hex output, hence ASCII, so UTF-8
encoding is byte-wise `Char.toNat`). -/
def base64urlOfAscii (s : String) : String := ⟨b64UrlChunks (s.data.map Char.toNat)⟩

/-- Return type of `createVerifierAndChallenge` (`VerifierChallenge` in the
source). -/
structure VerifierChallenge where
  verifier : String
  challenge : String
deriving DecidableEq

/-- Model of `createVerifierAndChallenge`: the verifier is
`randomBytes(32).toString('hex')` for the 32 random bytes supplied by the
environment, and the challenge is
`createHash('sha256').update(verifier).digest('hex')`, with the SHA-256
digest function abstract (external `node:crypto`). -/
def createVerifierAndChallenge (sha256 : String → List Nat)
    (randomBytes : List Nat) : VerifierChallenge :=
  let verifier := hexEncode randomBytes
  let challenge := hexEncode (sha256 verifier)
  ⟨verifier, challenge⟩

/-- Model of JavaScript's `Number.prototype.toString` on a natural number:
the decimal digits, most significant first. -/
def jsNatToString (n : Nat) : String :=
  if n = 0 then ⟨['0']⟩
  else ⟨(Nat.digits 10 n).reverse.map Nat.digitChar⟩

/-- Model of JavaScript's `Number.prototype.toString` on an integer. -/
def jsIntToString (i : Int) : String :=
  if i < 0 then ⟨'-' :: (jsNatToString i.natAbs).data⟩
  else jsNatToString i.natAbs

/-- Numeric value of a decimal digit character. -/
def digitVal (c : Char) : Nat := c.toNat - 48

/-- Value of the longest decimal-digit prefix, `none` when there is none
(`parseInt` yields `NaN` there). -/
def parseDigitsVal (cs : List Char) : Option Nat :=
  let ds := cs.takeWhile Char.isDigit
  if ds.isEmpty then none
  else some (ds.foldl (fun a c => 10 * a + digitVal c) 0)

/-- Model of JavaScript's `parseInt` on the strings this flow feeds it
(no surrounding whitespace): optional sign, then the longest digit prefix;
`none` models `NaN`. -/
def jsParseInt (s : String) : Option Int :=
  match s.data with
  | [] => none
  | c :: rest =>
    if c = '-' then (parseDigitsVal rest).map (fun n => -(Int.ofNat n))
    else if c = '+' then (parseDigitsVal rest).map Int.ofNat
    else (parseDigitsVal (c :: rest)).map Int.ofNat

/-- Response of `fetch` as far as the flow inspects it: its HTTP status.
`ok` mirrors `Response.ok` (status in the 2xx range). -/
structure HttpResponse where
  status : Nat
deriving DecidableEq

/-- Model of `Response.ok`. -/
def HttpResponse.ok (r : HttpResponse) : Bool :=
  (200 ≤ r.status) && (r.status < 300)

/-- Observable outcome of one `fetchWithRetry` call: the result it returns
or the fault it rethrows, the number of `fetch` attempts it made, and the
delays it slept between attempts. -/
structure FetchRun where
  result : Except String HttpResponse
  attemptsMade : Nat
  delays : List Nat

/-- Model of the `for` loop of `fetchWithRetry`, from iteration `i`:
a returned response (any status) is returned at once; a thrown fault is
followed by a `delayMs` sleep and a retry unless this was the last
allowed attempt, in which case the fault is rethrown; the `throw new
Error("Unreachable")` after the loop is reachable only when `tries = 0`. -/
def fetchLoop (attempt : Nat → Except String HttpResponse)
    (tries delayMs i : Nat) : FetchRun :=
  if i < tries then
    match attempt i with
    | .ok r => ⟨.ok r, i + 1, []⟩
    | .error err =>
      if i < tries - 1 then
        let rest := fetchLoop attempt tries delayMs (i + 1)
        ⟨rest.result, rest.attemptsMade, delayMs :: rest.delays⟩
      else ⟨.error err, i + 1, []⟩
  else ⟨.error "Unreachable", i, []⟩
termination_by tries - i

/-- Model of `fetchWithRetry` over a trace of per-attempt outcomes. -/
def fetchWithRetry (attempt : Nat → Except String HttpResponse)
    (tries delayMs : Nat) : FetchRun :=
  fetchLoop attempt tries delayMs 0

/-- Outcome of one polling iteration's check call, at the granularity of a
whole `fetchWithRetry` call: a transport fault after exhausted retries (or
a failing body parse), or a response with its `ok` flag and the
`has_authenticated` field of its body. When `ok` is false the body is never
read by the code, so a single Bool suffices. -/
inductive CheckOutcome
  | fault
  | resp (ok : Bool) (hasAuth : Bool)
deriving DecidableEq

/-- True exactly when the check response terminates the loop successfully:
`checkResponse.ok` and `checkData.has_authenticated`. -/
def CheckOutcome.confirms : CheckOutcome → Bool
  | .resp true true => true
  | _ => false

/-- Exit of the polling loop: confirmed at iteration `k`, deadline passed,
or a transport fault at iteration `k`; `elapsed` is the wall-clock time
(ms since loop start) at the iteration's `while` test. -/
inductive PollResult
  | authenticated (k elapsed : Nat)
  | timedOut (elapsed : Nat)
  | fault (k elapsed : Nat)
deriving DecidableEq

/-- Elapsed time at the loop's `while` test of the exiting iteration. -/
def PollResult.exitElapsed : PollResult → Nat
  | .authenticated _ e => e
  | .timedOut e => e
  | .fault _ e => e

/-- Model of the confirmation-polling loop of `authenticateWithUat`:
`while (Date.now() - startTime < timeoutMs)` — check, break on a 2xx
response whose body reports `has_authenticated`, otherwise sleep 5000 ms
and poll again; `dur k` is the wall-clock duration of iteration `k`'s
check call. -/
def pollLoop (checks : Nat → CheckOutcome) (dur : Nat → Nat)
    (k elapsed : Nat) : PollResult :=
  if elapsed < timeoutMs then
    match checks k with
    | .fault => .fault k elapsed
    | .resp ok hasAuth =>
      if ok && hasAuth then .authenticated k elapsed
      else pollLoop checks dur (k + 1) (elapsed + dur k + pollIntervalMs)
  else .timedOut elapsed
termination_by timeoutMs - elapsed
decreasing_by
  simp [pollIntervalMs] at *
  omega

/-- One organization of the `get_orgs` response body. -/
structure Org where
  id : Int
  name : String
deriving DecidableEq

/-- Body of the `get_keys` response (`UatKeyResponse` in the source); a
field is `none` when the JSON omits it. -/
structure UatKeyResponse where
  org_key : Option String
  api_key : Option String
deriving DecidableEq

/-- JavaScript truth test `!x` on an optional string field: true for a
missing field or the empty string. -/
def jsFalsyStr : Option String → Bool
  | none => true
  | some s => s.isEmpty

/-- Outcome of one `postForm`/`fetchWithRetry` call as the flow observes
it: a transport fault after exhausted retries (or a failing body parse),
or a response with its `ok` flag and parsed body. -/
inductive FetchOutcome (α : Type)
  | fault
  | resp (ok : Bool) (body : α)

/-- Form payload of the `get_orgs` request. -/
structure GetOrgsRequest where
  verify_token : String
  challenge_token : String
deriving DecidableEq

/-- Form payload of the `get_keys` request; `org_id` is `none` when
`parseInt` produced `NaN`. There is no challenge field in this request. -/
structure GetKeysRequest where
  verify_token : String
  org_id : Option Int
deriving DecidableEq

/-- Externally visible actions of `authenticateWithUat`, in order. -/
inductive AuthEvent
  | openedUrl (url : String)
  | promptedSelect (options : List (String × String))
  | getOrgs (req : GetOrgsRequest)
  | getKeys (req : GetKeysRequest)
deriving DecidableEq

/-- Failure exits of the body of `authenticateWithUat`; each corresponds
to a `throw` site (or a rethrown collaborator fault) inside the outer
`try`. -/
inductive AuthError
  | openUrlFault
  | transportFault
  | timeout
  | serverRejected
  | noOrgs
  | noApiKey
deriving DecidableEq

/-- Environment fixing the behaviour of every collaborator of one
`authenticateWithUat` run. -/
structure AuthEnv where
  authType : String
  baseUrl : String
  sha256 : String → List Nat
  rand1 : List Nat
  rand2 : List Nat
  openUrlOk : Bool
  checks : Nat → CheckOutcome
  checkDur : Nat → Nat
  orgsOutcome : FetchOutcome (Option (List Org))
  selectChoice : String
  keysOutcome : FetchOutcome UatKeyResponse

/-- Step 5 of `authenticateWithUat`: post the `get_keys` form carrying the
base64url-encoded second verifier and the selected org id, require a 2xx
status and a truthy `api_key`, and return the parsed body unchanged. -/
def fetchKeysStep (env : AuthEnv) (secondVerifier : String)
    (selectedOrgId : Option Int) (ev : List AuthEvent) :
    Except AuthError UatKeyResponse × List AuthEvent :=
  let req : GetKeysRequest := ⟨base64urlOfAscii secondVerifier, selectedOrgId⟩
  let ev' := ev ++ [.getKeys req]
  match env.keysOutcome with
  | .fault => (.error .transportFault, ev')
  | .resp ok body =>
    if ok then
      if jsFalsyStr body.api_key then (.error .noApiKey, ev')
      else (.ok body, ev')
    else (.error .serverRejected, ev')

/-- Body of `authenticateWithUat` (the contents of its outer `try`),
returning the result or the first failure, together with the trace of
outbound actions. The organization-count cases mirror the source's
`length === 0` / `length === 1` / `else` checks. -/
def authBody (env : AuthEnv) : Except AuthError UatKeyResponse × List AuthEvent :=
  let pair1 := createVerifierAndChallenge env.sha256 env.rand1
  let firstChallengeB64 := base64urlOfAscii pair1.challenge
  let authUrl :=
    env.baseUrl ++ "/uat/auth/" ++ env.authType ++ "/" ++ firstChallengeB64
  let ev0 : List AuthEvent := [.openedUrl authUrl]
  if env.openUrlOk then
    match pollLoop env.checks env.checkDur 0 0 with
    | .authenticated _ _ =>
      let pair2 := createVerifierAndChallenge env.sha256 env.rand2
      let orgsReq : GetOrgsRequest :=
        ⟨base64urlOfAscii pair1.verifier, base64urlOfAscii pair2.challenge⟩
      let ev1 := ev0 ++ [.getOrgs orgsReq]
      match env.orgsOutcome with
      | .fault => (.error .transportFault, ev1)
      | .resp ok body =>
        if ok then
          match body with
          | none => (.error .noOrgs, ev1)
          | some [] => (.error .noOrgs, ev1)
          | some [o] => fetchKeysStep env pair2.verifier (some o.id) ev1
          | some (o1 :: o2 :: rest) =>
            let opts := (o1 :: o2 :: rest).map fun o => (jsIntToString o.id, o.name)
            let ev2 := ev1 ++ [.promptedSelect opts]
            fetchKeysStep env pair2.verifier (jsParseInt env.selectChoice) ev2
        else (.error .serverRejected, ev1)
    | .timedOut _ => (.error .timeout, ev0)
    | .fault _ _ => (.error .transportFault, ev0)
  else (.error .openUrlFault, ev0)

/-- Model of `authenticateWithUat`: the outer `catch` converts every
failure of the body into a `null` (here `none`) return. -/
def authenticateWithUat (env : AuthEnv) : Option UatKeyResponse :=
  match (authBody env).1 with
  | .ok keys => some keys
  | .error _ => none

/-- Trace of outbound actions of one run. -/
def authTrace (env : AuthEnv) : List AuthEvent := (authBody env).2

/-- Number of interactive selection prompts in a trace. -/
def countSelectPrompts (t : List AuthEvent) : Nat :=
  (t.filter fun ev =>
    match ev with
    | .promptedSelect _ => true
    | _ => false).length

/-- Concrete run where the browser open fails. -/
def envOpenUrlFail : AuthEnv :=
  { authType := "sign_in", baseUrl := "https://scoutapm.com",
    sha256 := fun _ => [], rand1 := [], rand2 := [],
    openUrlOk := false,
    checks := fun _ => .resp true true, checkDur := fun _ => 0,
    orgsOutcome := .resp true none, selectChoice := "",
    keysOutcome := .fault }

/-- Concrete run where every check answers 2xx with
`has_authenticated = false`: confirmation never arrives. -/
def envNoConfirm : AuthEnv :=
  { authType := "sign_in", baseUrl := "https://scoutapm.com",
    sha256 := fun _ => [], rand1 := [], rand2 := [],
    openUrlOk := true,
    checks := fun _ => .resp true false, checkDur := fun _ => 0,
    orgsOutcome := .resp true none, selectChoice := "",
    keysOutcome := .fault }

/-- Concrete successful-confirmation run whose `get_keys` response omits
`org_key` but carries `api_key = "ak"`. -/
def envNoOrgKey : AuthEnv :=
  { authType := "sign_in", baseUrl := "https://scoutapm.com",
    sha256 := fun _ => [], rand1 := [], rand2 := [],
    openUrlOk := true,
    checks := fun _ => .resp true true, checkDur := fun _ => 0,
    orgsOutcome := .resp true (some [⟨1, "A"⟩]), selectChoice := "",
    keysOutcome := .resp true ⟨none, some "ak"⟩ }

/-- Concrete run with two organizations where the user selects "B"
(value "2"). -/
def envTwoOrgs : AuthEnv :=
  { authType := "sign_in", baseUrl := "https://scoutapm.com",
    sha256 := fun _ => [], rand1 := [], rand2 := [],
    openUrlOk := true,
    checks := fun _ => .resp true true, checkDur := fun _ => 0,
    orgsOutcome := .resp true (some [⟨1, "A"⟩, ⟨2, "B"⟩]), selectChoice := "2",
    keysOutcome := .resp true ⟨some "ok1", some "ak1"⟩ }

/-- Concrete run whose `get_orgs` response carries an empty `orgs` list. -/
def envNoOrgs : AuthEnv :=
  { authType := "sign_in", baseUrl := "https://scoutapm.com",
    sha256 := fun _ => [], rand1 := [], rand2 := [],
    openUrlOk := true,
    checks := fun _ => .resp true true, checkDur := fun _ => 0,
    orgsOutcome := .resp true (some []), selectChoice := "",
    keysOutcome := .resp true ⟨some "ok1", some "ak1"⟩ }

theorem pollLoop_authenticated_confirms (checks : Nat → CheckOutcome)
    (dur : Nat → Nat) :
    ∀ k e k' e', pollLoop checks dur k e = .authenticated k' e' →
      (checks k').confirms = true ∧ e' < timeoutMs := by
  intro k e
  induction k, e using pollLoop.induct checks dur with
  | case1 k e he hc =>
    intro k' e' h
    rw [pollLoop] at h
    simp [he, hc] at h
  | case2 k e he ok ha hc hba =>
    intro k' e' h
    rw [pollLoop] at h
    simp [he, hc, hba] at h
    obtain ⟨hk, he'⟩ := h
    subst hk; subst he'
    refine ⟨?_, he⟩
    simp only [CheckOutcome.confirms, hc]
    revert hba
    cases ok <;> cases ha <;> simp
  | case3 k e he ok ha hc hba ih =>
    intro k' e' h
    rw [pollLoop] at h
    simp [he, hc, hba] at h
    exact ih k' e' h
  | case4 k e he =>
    intro k' e' h
    rw [pollLoop] at h
    simp [he] at h

theorem pollLoop_fault_isFault (checks : Nat → CheckOutcome)
    (dur : Nat → Nat) :
    ∀ k e k' e', pollLoop checks dur k e = .fault k' e' →
      checks k' = .fault ∧ e' < timeoutMs := by
  intro k e
  induction k, e using pollLoop.induct checks dur with
  | case1 k e he hc =>
    intro k' e' h
    rw [pollLoop] at h
    simp [he, hc] at h
    obtain ⟨hk, he'⟩ := h
    subst hk; subst he'
    exact ⟨hc, he⟩
  | case2 k e he ok ha hc hba =>
    intro k' e' h
    rw [pollLoop] at h
    simp [he, hc, hba] at h
  | case3 k e he ok ha hc hba ih =>
    intro k' e' h
    rw [pollLoop] at h
    simp [he, hc, hba] at h
    exact ih k' e' h
  | case4 k e he =>
    intro k' e' h
    rw [pollLoop] at h
    simp [he] at h

theorem pollLoop_timedOut_ge (checks : Nat → CheckOutcome)
    (dur : Nat → Nat) :
    ∀ k e e', pollLoop checks dur k e = .timedOut e' → timeoutMs ≤ e' := by
  intro k e
  induction k, e using pollLoop.induct checks dur with
  | case1 k e he hc =>
    intro e' h; rw [pollLoop] at h; simp [he, hc] at h
  | case2 k e he ok ha hc hba =>
    intro e' h; rw [pollLoop] at h; simp [he, hc, hba] at h
  | case3 k e he ok ha hc hba ih =>
    intro e' h; rw [pollLoop] at h; simp [he, hc, hba] at h
    exact ih e' h
  | case4 k e he =>
    intro e' h; rw [pollLoop] at h; simp [he] at h
    omega

theorem pollLoop_exitElapsed_le (checks : Nat → CheckOutcome)
    (dur : Nat → Nat) (D : Nat) (hD : ∀ k, dur k ≤ D) :
    ∀ k e, e ≤ timeoutMs + D + pollIntervalMs →
      (pollLoop checks dur k e).exitElapsed ≤ timeoutMs + D + pollIntervalMs := by
  intro k e
  induction k, e using pollLoop.induct checks dur with
  | case1 k e he hc =>
    intro _
    rw [pollLoop]
    simp [he, hc, PollResult.exitElapsed]
    omega
  | case2 k e he ok ha hc hba =>
    intro _
    rw [pollLoop]
    simp [he, hc, hba, PollResult.exitElapsed]
    omega
  | case3 k e he ok ha hc hba ih =>
    intro _
    rw [pollLoop]
    simp [he, hc, hba]
    exact ih (by have := hD k; omega)
  | case4 k e he =>
    intro hle
    rw [pollLoop]
    simp [he, PollResult.exitElapsed]
    omega

theorem pollLoop_noConfirm_noFault_timedOut (checks : Nat → CheckOutcome)
    (dur : Nat → Nat) (hnc : ∀ k, (checks k).confirms = false)
    (hnf : ∀ k, checks k ≠ .fault) :
    ∀ k e, ∃ e', pollLoop checks dur k e = .timedOut e' := by
  intro k e
  induction k, e using pollLoop.induct checks dur with
  | case1 k e he hc => exact absurd hc (hnf k)
  | case2 k e he ok ha hc hba =>
    exfalso
    have := hnc k
    rw [hc] at this
    revert hba this
    cases ok <;> cases ha <;> simp [CheckOutcome.confirms]
  | case3 k e he ok ha hc hba ih =>
    obtain ⟨e', he'⟩ := ih
    refine ⟨e', ?_⟩
    rw [pollLoop]
    simp [he, hc, hba, he']
  | case4 k e he =>
    refine ⟨e, ?_⟩
    rw [pollLoop]
    simp [he]

theorem hexChars_length (bs : List Nat) :
    (hexChars bs).length = 2 * bs.length := by
  induction bs with
  | nil => rfl
  | cons b bs ih => simp [hexChars, ih]; omega

theorem hexDigitChar_isHex (n : Nat) (h : n < 16) :
    isHexDigitChar (hexDigitChar n) = true := by
  interval_cases n <;> decide

theorem mem_hexChars_isHex (bs : List Nat) (hb : ∀ b ∈ bs, b < 256) :
    ∀ c ∈ hexChars bs, isHexDigitChar c = true := by
  induction bs with
  | nil => intro c hc; simp [hexChars] at hc
  | cons b bs ih =>
    intro c hc
    have hblt : b < 256 := hb b (by simp)
    simp only [hexChars, List.mem_cons] at hc
    rcases hc with h1 | h2 | h3
    · subst h1; exact hexDigitChar_isHex _ (by omega)
    · subst h2; exact hexDigitChar_isHex _ (by omega)
    · exact ih (fun x hx => hb x (by simp [hx])) c h3

/-- C5: every pair produced by `createVerifierAndChallenge` has as challenge
the hex-encoded SHA-256 digest of its verifier, and as verifier the hex
encoding of the 32 supplied random bytes — a 64-character string of hex
digits. -/
theorem C5_verifier_challenge_shape (sha256 : String → List Nat)
    (randomBytes : List Nat) (hlen : randomBytes.length = 32)
    (hbyte : ∀ b ∈ randomBytes, b < 256) :
    (createVerifierAndChallenge sha256 randomBytes).challenge
      = hexEncode (sha256 (createVerifierAndChallenge sha256 randomBytes).verifier)
    ∧ (createVerifierAndChallenge sha256 randomBytes).verifier = hexEncode randomBytes
    ∧ (createVerifierAndChallenge sha256 randomBytes).verifier.length = 64
    ∧ ∀ c ∈ (createVerifierAndChallenge sha256 randomBytes).verifier.data,
        isHexDigitChar c = true := by
  refine ⟨rfl, rfl, ?_, ?_⟩
  · show (hexEncode randomBytes).length = 64
    show (hexChars randomBytes).length = 64
    rw [hexChars_length, hlen]
  · intro c hc
    exact mem_hexChars_isHex randomBytes hbyte c hc

/-- C5 witness: the pair built from 32 zero bytes under a concrete digest
function. -/
theorem C5_verifier_challenge_shape_witness :
    (createVerifierAndChallenge (fun _ => [1, 2]) (List.replicate 32 0)).challenge
      = hexEncode ((fun _ => [1, 2])
          (createVerifierAndChallenge (fun _ => [1, 2]) (List.replicate 32 0)).verifier)
    ∧ (createVerifierAndChallenge (fun _ => [1, 2]) (List.replicate 32 0)).verifier.length
        = 64 := by
  have h := C5_verifier_challenge_shape (fun _ => [1, 2]) (List.replicate 32 0)
    (by decide) (by decide)
  exact ⟨h.1, h.2.2.1⟩

/-- C2: with the source's default arguments (2 tries, 1000 ms delay),
`fetchWithRetry` makes at most 2 attempts; any returned response — 2xx or
not — comes back at once with no retry; a first-attempt fault is followed
by one 1000 ms delay and exactly one retry whose response is returned; a
fault on the final attempt is rethrown to the caller; and when the retry
succeeds the result is the same as if the first attempt had succeeded. -/
theorem C2_fetchWithRetry_semantics (a : Nat → Except String HttpResponse) :
    (fetchWithRetry a 2 1000).attemptsMade ≤ 2
    ∧ (∀ r : HttpResponse, a 0 = .ok r →
        fetchWithRetry a 2 1000 = ⟨.ok r, 1, []⟩)
    ∧ (∀ err r, a 0 = .error err → a 1 = .ok r →
        fetchWithRetry a 2 1000 = ⟨.ok r, 2, [1000]⟩
        ∧ (fetchWithRetry a 2 1000).result
            = (fetchWithRetry (fun _ => .ok r) 2 1000).result)
    ∧ (∀ err err', a 0 = .error err → a 1 = .error err' →
        fetchWithRetry a 2 1000 = ⟨.error err', 2, [1000]⟩) := by
  have step0ok : ∀ r : HttpResponse, a 0 = .ok r →
      fetchLoop a 2 1000 0 = ⟨.ok r, 1, []⟩ := by
    intro r h0; rw [fetchLoop]; simp [h0]
  have step0err : ∀ err, a 0 = .error err →
      fetchLoop a 2 1000 0 =
        ⟨(fetchLoop a 2 1000 1).result, (fetchLoop a 2 1000 1).attemptsMade,
         1000 :: (fetchLoop a 2 1000 1).delays⟩ := by
    intro err h0; rw [fetchLoop]; simp [h0]
  have step1ok : ∀ r : HttpResponse, a 1 = .ok r →
      fetchLoop a 2 1000 1 = ⟨.ok r, 2, []⟩ := by
    intro r h1; rw [fetchLoop]; simp [h1]
  have step1err : ∀ err, a 1 = .error err →
      fetchLoop a 2 1000 1 = ⟨.error err, 2, []⟩ := by
    intro err h1; rw [fetchLoop]; simp [h1]
  refine ⟨?_, ?_, ?_, ?_⟩
  · show (fetchLoop a 2 1000 0).attemptsMade ≤ 2
    cases h0 : a 0 with
    | ok r => rw [step0ok _ h0]; simp
    | error err =>
      rw [step0err _ h0]
      cases h1 : a 1 with
      | ok r => rw [step1ok _ h1]
      | error err' => rw [step1err _ h1]
  · intro r h0
    exact step0ok _ h0
  · intro err r h0 h1
    have hmain : fetchLoop a 2 1000 0 = ⟨.ok r, 2, [1000]⟩ := by
      rw [step0err _ h0, step1ok _ h1]
    refine ⟨hmain, ?_⟩
    show (fetchLoop a 2 1000 0).result = (fetchLoop (fun _ => .ok r) 2 1000 0).result
    have hpure : fetchLoop (fun _ => (Except.ok r : Except String HttpResponse))
        2 1000 0 = ⟨.ok r, 1, []⟩ := by
      rw [fetchLoop]; simp
    rw [hmain, hpure]
  · intro err err' h0 h1
    show fetchLoop a 2 1000 0 = _
    rw [step0err _ h0, step1err _ h1]

/-- C2 witness: a run whose first attempt throws and whose retry returns a
200 response. -/
theorem C2_fetchWithRetry_semantics_witness :
    fetchWithRetry
        (fun i => if i = 0 then .error "reset" else .ok ⟨200⟩) 2 1000
      = ⟨.ok ⟨200⟩, 2, [1000]⟩ :=
  ((C2_fetchWithRetry_semantics
      (fun i => if i = 0 then .error "reset" else .ok ⟨200⟩)).2.2.1
    "reset" ⟨200⟩ rfl rfl).1

/-- C10: inside the polling loop, a non-2xx check response or a 2xx
response with `has_authenticated = false` never terminates the loop — the
loop just moves to the next iteration after the check's duration plus the
5000 ms sleep; and an exit before the deadline happens only at a confirming
2xx response or a transport fault of the check call, while a timeout exit
happens only at or past the deadline. -/
theorem C10_poll_continues_on_nonconfirming (checks : Nat → CheckOutcome)
    (dur : Nat → Nat) (k e : Nat) :
    (∀ ok ha, e < timeoutMs → checks k = .resp ok ha → (ok && ha) = false →
       pollLoop checks dur k e
         = pollLoop checks dur (k + 1) (e + dur k + pollIntervalMs))
    ∧ (∀ k' e', pollLoop checks dur k e = .authenticated k' e' →
        (checks k').confirms = true ∧ e' < timeoutMs)
    ∧ (∀ k' e', pollLoop checks dur k e = .fault k' e' →
        checks k' = .fault ∧ e' < timeoutMs)
    ∧ (∀ e', pollLoop checks dur k e = .timedOut e' → timeoutMs ≤ e') := by
  refine ⟨?_, pollLoop_authenticated_confirms checks dur k e,
    pollLoop_fault_isFault checks dur k e, pollLoop_timedOut_ge checks dur k e⟩
  intro ok ha he hc hba
  conv_lhs => rw [pollLoop]
  simp [he, hc, hba]

/-- C10 witness: a 2xx check reporting `has_authenticated = false` at the
loop start makes the loop poll again 5000 ms later. -/
theorem C10_poll_continues_on_nonconfirming_witness :
    pollLoop (fun _ => .resp true false) (fun _ => 0) 0 0
      = pollLoop (fun _ => .resp true false) (fun _ => 0) 1
          (0 + 0 + pollIntervalMs) :=
  (C10_poll_continues_on_nonconfirming (fun _ => .resp true false)
    (fun _ => 0) 0 0).1 true false (by decide) rfl rfl

/-- C3: when no check response ever confirms, the polling loop terminates —
within one check duration plus one polling interval past the 300-second
deadline — and `authenticateWithUat` returns null; when additionally no
check faults, the exit is a timeout at an elapsed time between the deadline
and the deadline plus one check duration plus one interval. -/
theorem C3_timeout_returns_null (env : AuthEnv) (D : Nat)
    (hnc : ∀ k, (env.checks k).confirms = false)
    (hD : ∀ k, env.checkDur k ≤ D) :
    authenticateWithUat env = none
    ∧ (pollLoop env.checks env.checkDur 0 0).exitElapsed
        ≤ timeoutMs + D + pollIntervalMs
    ∧ ((∀ k, env.checks k ≠ .fault) →
        ∃ e, pollLoop env.checks env.checkDur 0 0 = .timedOut e
          ∧ timeoutMs ≤ e ∧ e ≤ timeoutMs + D + pollIntervalMs) := by
  have hle := pollLoop_exitElapsed_le env.checks env.checkDur D hD 0 0 (by simp)
  have hnone : authenticateWithUat env = none := by
    cases houb : env.openUrlOk with
    | false => simp [authenticateWithUat, authBody, houb]
    | true =>
      cases hp : pollLoop env.checks env.checkDur 0 0 with
      | authenticated k e =>
        have hcf := (pollLoop_authenticated_confirms env.checks env.checkDur
          0 0 k e hp).1
        rw [hnc k] at hcf
        exact absurd hcf (by simp)
      | timedOut e => simp [authenticateWithUat, authBody, houb, hp]
      | fault k e => simp [authenticateWithUat, authBody, houb, hp]
  refine ⟨hnone, hle, ?_⟩
  intro hnf
  obtain ⟨e, he⟩ :=
    pollLoop_noConfirm_noFault_timedOut env.checks env.checkDur hnc hnf 0 0
  refine ⟨e, he, pollLoop_timedOut_ge env.checks env.checkDur 0 0 e he, ?_⟩
  rw [he] at hle
  simpa [PollResult.exitElapsed] using hle

/-- C3 witness: the run whose checks all answer `has_authenticated = false`
ends with a null return. -/
theorem C3_timeout_returns_null_witness :
    authenticateWithUat envNoConfirm = none :=
  (C3_timeout_returns_null envNoConfirm 0 (fun _ => rfl)
    (fun _ => Nat.le.refl)).1

/-- C1: `authenticateWithUat` always returns a credential record or null;
the body's value is an `Except` whose every error the outer catch converts
to null and whose every success is passed through — no fault escapes the
boundary. -/
theorem C1_no_fault_escapes (env : AuthEnv) :
    (authenticateWithUat env = none ∨ ∃ k, authenticateWithUat env = some k)
    ∧ (∀ e, (authBody env).1 = .error e → authenticateWithUat env = none)
    ∧ (∀ k, (authBody env).1 = .ok k → authenticateWithUat env = some k) := by
  cases h : (authBody env).1 with
  | ok k =>
    refine ⟨Or.inr ⟨k, by simp [authenticateWithUat, h]⟩, ?_, ?_⟩
    · intro e he
      cases he
    · intro k' hk
      cases hk
      simp [authenticateWithUat, h]
  | error e =>
    refine ⟨Or.inl (by simp [authenticateWithUat, h]), ?_, ?_⟩
    · intro e' he
      simp [authenticateWithUat, h]
    · intro k' hk
      cases hk

/-- C1 witness: the run whose browser-open collaborator throws still
returns null. -/
theorem C1_no_fault_escapes_witness :
    authenticateWithUat envOpenUrlFail = none :=
  (C1_no_fault_escapes envOpenUrlFail).2.1 AuthError.openUrlFault rfl

theorem digitChar_isDigit (d : Nat) (h : d < 10) :
    (Nat.digitChar d).isDigit = true := by
  interval_cases d <;> decide

theorem digitVal_digitChar (d : Nat) (h : d < 10) :
    digitVal (Nat.digitChar d) = d := by
  interval_cases d <;> decide

theorem digitChar_ne_minus (d : Nat) (h : d < 10) :
    Nat.digitChar d ≠ '-' := by
  interval_cases d <;> decide

theorem digitChar_ne_plus (d : Nat) (h : d < 10) :
    Nat.digitChar d ≠ '+' := by
  interval_cases d <;> decide

theorem foldl_digitVal_map (ds : List Nat) (h : ∀ d ∈ ds, d < 10) :
    ∀ a, (ds.map Nat.digitChar).foldl (fun acc c => 10 * acc + digitVal c) a
      = ds.foldl (fun acc d => 10 * acc + d) a := by
  induction ds with
  | nil => intro a; rfl
  | cons d ds ih =>
    intro a
    simp only [List.map_cons, List.foldl_cons]
    rw [digitVal_digitChar d (h d (by simp))]
    exact ih (fun x hx => h x (by simp [hx])) _

theorem foldl_rev_ofDigits (ds : List Nat) :
    ds.reverse.foldl (fun acc d => 10 * acc + d) 0 = Nat.ofDigits 10 ds := by
  rw [List.foldl_reverse]
  induction ds with
  | nil => simp [Nat.ofDigits]
  | cons d ds ih =>
    rw [List.foldr_cons, ih, Nat.ofDigits_cons]
    omega

theorem parseDigitsVal_digits (n : Nat) (hn : n ≠ 0) :
    parseDigitsVal ((Nat.digits 10 n).reverse.map Nat.digitChar) = some n := by
  have hlt : ∀ d ∈ (Nat.digits 10 n).reverse, d < 10 := by
    intro d hd
    rw [List.mem_reverse] at hd
    exact Nat.digits_lt_base (by norm_num) hd
  have hdig : ∀ c ∈ (Nat.digits 10 n).reverse.map Nat.digitChar,
      Char.isDigit c = true := by
    intro c hc
    rw [List.mem_map] at hc
    obtain ⟨d, hd, rfl⟩ := hc
    exact digitChar_isDigit d (hlt d hd)
  have hne : (Nat.digits 10 n).reverse.map Nat.digitChar ≠ [] := by
    simp [Nat.digits_ne_nil_iff_ne_zero.mpr hn]
  unfold parseDigitsVal
  rw [List.takeWhile_eq_self_iff.mpr hdig]
  rw [if_neg (by simpa [List.isEmpty_iff] using hne)]
  rw [foldl_digitVal_map _ hlt, foldl_rev_ofDigits, Nat.ofDigits_digits]

theorem jsParseInt_mk_minus (l : List Char) :
    jsParseInt ⟨'-' :: l⟩ = (parseDigitsVal l).map (fun n => -(Int.ofNat n)) := by
  rw [jsParseInt]
  simp

theorem jsParseInt_mk_cons (c : Char) (l : List Char) (h1 : c ≠ '-') (h2 : c ≠ '+') :
    jsParseInt ⟨c :: l⟩ = (parseDigitsVal (c :: l)).map Int.ofNat := by
  rw [jsParseInt]
  simp [h1, h2]

theorem jsParseInt_jsIntToString (i : Int) :
    jsParseInt (jsIntToString i) = some i := by
  by_cases hneg : i < 0
  · have hnz : i.natAbs ≠ 0 := by omega
    rw [jsIntToString, if_pos hneg, jsNatToString, if_neg hnz]
    rw [jsParseInt_mk_minus, parseDigitsVal_digits _ hnz]
    simp only [Option.map_some', Int.ofNat_eq_natCast, Option.some.injEq]
    omega
  · by_cases hz : i.natAbs = 0
    · have hi0 : i = 0 := by omega
      subst hi0
      decide
    · rw [jsIntToString, if_neg hneg, jsNatToString, if_neg hz]
      obtain ⟨d, rest, hcons⟩ :
          ∃ d rest, (Nat.digits 10 i.natAbs).reverse = d :: rest := by
        rcases h : (Nat.digits 10 i.natAbs).reverse with _ | ⟨d, rest⟩
        · exfalso
          have hnn : Nat.digits 10 i.natAbs ≠ [] :=
            Nat.digits_ne_nil_iff_ne_zero.mpr hz
          rw [List.reverse_eq_nil_iff] at h
          exact hnn h
        · exact ⟨d, rest, rfl⟩
      have hdlt : d < 10 := by
        have hmem : d ∈ (Nat.digits 10 i.natAbs).reverse := by simp [hcons]
        rw [List.mem_reverse] at hmem
        exact Nat.digits_lt_base (by norm_num) hmem
      rw [show ((Nat.digits 10 i.natAbs).reverse.map Nat.digitChar)
            = Nat.digitChar d :: rest.map Nat.digitChar by rw [hcons, List.map_cons]]
      rw [jsParseInt_mk_cons _ _ (digitChar_ne_minus d hdlt) (digitChar_ne_plus d hdlt)]
      rw [show Nat.digitChar d :: rest.map Nat.digitChar
            = (Nat.digits 10 i.natAbs).reverse.map Nat.digitChar by
          rw [hcons, List.map_cons]]
      rw [parseDigitsVal_digits _ hz]
      simp only [Option.map_some', Int.ofNat_eq_natCast, Option.some.injEq]
      omega

theorem fetchKeysStep_snd (env : AuthEnv) (v : String) (sel : Option Int)
    (ev : List AuthEvent) :
    (fetchKeysStep env v sel ev).2
      = ev ++ [AuthEvent.getKeys ⟨base64urlOfAscii v, sel⟩] := by
  unfold fetchKeysStep
  cases env.keysOutcome with
  | fault => rfl
  | resp ok body =>
    cases ok
    · simp
    · cases hf : jsFalsyStr body.api_key <;> simp [hf]

theorem pollLoop_immediate_confirm (dur : Nat → Nat) :
    pollLoop (fun _ => CheckOutcome.resp true true) dur 0 0
      = .authenticated 0 0 := by
  rw [pollLoop]
  simp [timeoutMs]

/-- C7: a `get_orgs` response whose `orgs` field is missing or empty, or a
`get_orgs` response with a non-2xx status, makes `authenticateWithUat`
return null without ever issuing the `get_keys` request. -/
theorem C7_no_orgs_returns_null (env : AuthEnv) (ok : Bool)
    (body : Option (List Org))
    (ho : env.orgsOutcome = .resp ok body)
    (hbad : ok = false ∨ body = none ∨ body = some []) :
    authenticateWithUat env = none
    ∧ ∀ req : GetKeysRequest, AuthEvent.getKeys req ∉ authTrace env := by
  cases houb : env.openUrlOk with
  | false =>
    refine ⟨by simp [authenticateWithUat, authBody, houb], ?_⟩
    intro req
    simp [authTrace, authBody, houb]
  | true =>
    cases hp : pollLoop env.checks env.checkDur 0 0 with
    | timedOut e =>
      refine ⟨by simp [authenticateWithUat, authBody, houb, hp], ?_⟩
      intro req
      simp [authTrace, authBody, houb, hp]
    | fault k e =>
      refine ⟨by simp [authenticateWithUat, authBody, houb, hp], ?_⟩
      intro req
      simp [authTrace, authBody, houb, hp]
    | authenticated k e =>
      rcases hbad with hok | hbody | hbody
      · subst hok
        refine ⟨by simp [authenticateWithUat, authBody, houb, hp, ho], ?_⟩
        intro req
        simp [authTrace, authBody, houb, hp, ho]
      · subst hbody
        cases hok : ok
        · subst hok
          refine ⟨by simp [authenticateWithUat, authBody, houb, hp, ho], ?_⟩
          intro req
          simp [authTrace, authBody, houb, hp, ho]
        · subst hok
          refine ⟨by simp [authenticateWithUat, authBody, houb, hp, ho], ?_⟩
          intro req
          simp [authTrace, authBody, houb, hp, ho]
      · subst hbody
        cases hok : ok
        · subst hok
          refine ⟨by simp [authenticateWithUat, authBody, houb, hp, ho], ?_⟩
          intro req
          simp [authTrace, authBody, houb, hp, ho]
        · subst hok
          refine ⟨by simp [authenticateWithUat, authBody, houb, hp, ho], ?_⟩
          intro req
          simp [authTrace, authBody, houb, hp, ho]

/-- C7 witness: a confirmed run whose `get_orgs` response carries zero
organizations returns null. -/
theorem C7_no_orgs_returns_null_witness :
    authenticateWithUat envNoOrgs = none :=
  (C7_no_orgs_returns_null envNoOrgs true (some []) rfl
    (Or.inr (Or.inr rfl))).1

/-- C6: once the flow reaches the organization step, a single-organization
response is selected automatically — no selection prompt appears in the
trace and the `get_keys` request carries that organization's id — while a
response with two or more organizations produces exactly one selection
prompt whose options are the organizations' ids as strings paired with
their names. -/
theorem C6_org_disambiguation (env : AuthEnv) (orgs : List Org) (ka ea : Nat)
    (houb : env.openUrlOk = true)
    (hp : pollLoop env.checks env.checkDur 0 0 = .authenticated ka ea)
    (ho : env.orgsOutcome = .resp true (some orgs)) :
    (∀ o : Org, orgs = [o] →
      countSelectPrompts (authTrace env) = 0
      ∧ AuthEvent.getKeys ⟨base64urlOfAscii (hexEncode env.rand2), some o.id⟩
          ∈ authTrace env)
    ∧ (2 ≤ orgs.length →
      countSelectPrompts (authTrace env) = 1
      ∧ AuthEvent.promptedSelect (orgs.map fun o => (jsIntToString o.id, o.name))
          ∈ authTrace env) := by
  constructor
  · intro o horgs
    subst horgs
    constructor
    · simp [authTrace, authBody, houb, hp, ho, fetchKeysStep_snd,
        countSelectPrompts]
    · simp [authTrace, authBody, houb, hp, ho, fetchKeysStep_snd,
        createVerifierAndChallenge]
  · intro hlen
    rcases orgs with _ | ⟨o1, _ | ⟨o2, rest⟩⟩
    · simp at hlen
    · simp at hlen
    · constructor
      · simp [authTrace, authBody, houb, hp, ho, fetchKeysStep_snd,
          countSelectPrompts]
      · simp [authTrace, authBody, houb, hp, ho, fetchKeysStep_snd]

/-- C6 witness: the two-organization run prompts exactly once. -/
theorem C6_org_disambiguation_witness :
    countSelectPrompts (authTrace envTwoOrgs) = 1 :=
  ((C6_org_disambiguation envTwoOrgs [⟨1, "A"⟩, ⟨2, "B"⟩] 0 0 rfl
      (pollLoop_immediate_confirm envTwoOrgs.checkDur) rfl).2 (by decide)).1

/-- C8: in a multi-organization run where the user picks one of the offered
options, the `get_keys` form request carries the selected organization's
integer id (parsed back from the option's string value) as `org_id`,
alongside the base64url-encoded second verifier as `verify_token`. -/
theorem C8_get_keys_carries_selected_org (env : AuthEnv) (o1 o2 o : Org)
    (rest : List Org) (ka ea : Nat)
    (houb : env.openUrlOk = true)
    (hp : pollLoop env.checks env.checkDur 0 0 = .authenticated ka ea)
    (ho : env.orgsOutcome = .resp true (some (o1 :: o2 :: rest)))
    (_hmem : o ∈ o1 :: o2 :: rest)
    (hsel : env.selectChoice = jsIntToString o.id) :
    AuthEvent.getKeys ⟨base64urlOfAscii (hexEncode env.rand2), some o.id⟩
      ∈ authTrace env := by
  have hparse : jsParseInt env.selectChoice = some o.id := by
    rw [hsel, jsParseInt_jsIntToString]
  simp [authTrace, authBody, houb, hp, ho, fetchKeysStep_snd,
    createVerifierAndChallenge, hparse]

/-- C8 witness: with organizations `{1,"A"}` and `{2,"B"}` and the user
selecting "B" (value "2"), the `get_keys` request carries `org_id = 2`. -/
theorem C8_get_keys_carries_selected_org_witness :
    AuthEvent.getKeys
        ⟨base64urlOfAscii (hexEncode envTwoOrgs.rand2), some 2⟩
      ∈ authTrace envTwoOrgs :=
  C8_get_keys_carries_selected_org envTwoOrgs ⟨1, "A"⟩ ⟨2, "B"⟩ ⟨2, "B"⟩ [] 0 0
    rfl (pollLoop_immediate_confirm envTwoOrgs.checkDur) rfl (by simp)
    (by simp [jsIntToString, jsNatToString]; decide)

/-- C9: the `get_orgs` request carries the first pair's verifier together
with only the second pair's challenge; the `get_keys` request carries the
second pair's verifier (its payload has no challenge field at all); and a
`get_orgs` request exists in the trace only when the polling loop actually
confirmed the first challenge, so the second pair is generated only after
that confirmation. -/
theorem C9_verifier_never_with_own_challenge (env : AuthEnv) :
    (∀ req : GetOrgsRequest, AuthEvent.getOrgs req ∈ authTrace env →
      req.verify_token = base64urlOfAscii (hexEncode env.rand1)
      ∧ req.challenge_token
          = base64urlOfAscii (hexEncode (env.sha256 (hexEncode env.rand2)))
      ∧ ∃ ka ea, pollLoop env.checks env.checkDur 0 0 = .authenticated ka ea
          ∧ (env.checks ka).confirms = true)
    ∧ (∀ req : GetKeysRequest, AuthEvent.getKeys req ∈ authTrace env →
      req.verify_token = base64urlOfAscii (hexEncode env.rand2)) := by
  cases houb : env.openUrlOk with
  | false =>
    constructor <;> intro req hmem <;> simp [authTrace, authBody, houb] at hmem
  | true =>
    cases hp : pollLoop env.checks env.checkDur 0 0 with
    | timedOut e =>
      constructor <;> intro req hmem <;>
        simp [authTrace, authBody, houb, hp] at hmem
    | fault k e =>
      constructor <;> intro req hmem <;>
        simp [authTrace, authBody, houb, hp] at hmem
    | authenticated k e =>
      have hcf := (pollLoop_authenticated_confirms env.checks env.checkDur
        0 0 k e hp).1
      cases ho : env.orgsOutcome with
      | fault =>
        constructor <;> intro req hmem <;>
          simp [authTrace, authBody, houb, hp, ho,
            createVerifierAndChallenge] at hmem
        · subst hmem
          exact ⟨rfl, rfl, k, e, rfl, hcf⟩
      | resp ok body =>
        cases ok with
        | false =>
          constructor <;> intro req hmem <;>
            simp [authTrace, authBody, houb, hp, ho,
              createVerifierAndChallenge] at hmem
          · subst hmem
            exact ⟨rfl, rfl, k, e, rfl, hcf⟩
        | true =>
          rcases body with _ | ⟨_ | ⟨o1, _ | ⟨o2, rest⟩⟩⟩
          · constructor <;> intro req hmem <;>
              simp [authTrace, authBody, houb, hp, ho,
                createVerifierAndChallenge] at hmem
            · subst hmem
              exact ⟨rfl, rfl, k, e, rfl, hcf⟩
          · constructor <;> intro req hmem <;>
              simp [authTrace, authBody, houb, hp, ho,
                createVerifierAndChallenge] at hmem
            · subst hmem
              exact ⟨rfl, rfl, k, e, rfl, hcf⟩
          · constructor <;> intro req hmem <;>
              simp [authTrace, authBody, houb, hp, ho, fetchKeysStep_snd,
                createVerifierAndChallenge] at hmem
            · subst hmem
              exact ⟨rfl, rfl, k, e, rfl, hcf⟩
            · subst hmem
              rfl
          · constructor <;> intro req hmem <;>
              simp [authTrace, authBody, houb, hp, ho, fetchKeysStep_snd,
                createVerifierAndChallenge] at hmem
            · subst hmem
              exact ⟨rfl, rfl, k, e, rfl, hcf⟩
            · subst hmem
              rfl

theorem authBody_ok_characterization (env : AuthEnv) (k : UatKeyResponse) :
    (authBody env).1 = .ok k →
      env.keysOutcome = .resp true k ∧ jsFalsyStr k.api_key = false := by
  intro hok
  cases houb : env.openUrlOk with
  | false => simp [authBody, houb] at hok
  | true =>
    cases hp : pollLoop env.checks env.checkDur 0 0 with
    | timedOut e => simp [authBody, houb, hp] at hok
    | fault kk e => simp [authBody, houb, hp] at hok
    | authenticated kk e =>
      cases ho : env.orgsOutcome with
      | fault => simp [authBody, houb, hp, ho] at hok
      | resp ok body =>
        cases ok with
        | false => simp [authBody, houb, hp, ho] at hok
        | true =>
          rcases body with _ | ⟨_ | ⟨o1, _ | ⟨o2, rest⟩⟩⟩ <;>
            [skip; skip; skip; skip] <;>
            simp [authBody, houb, hp, ho, fetchKeysStep] at hok <;>
            try exact hok
          all_goals {
            cases hko : env.keysOutcome with
            | fault => simp [authBody, houb, hp, ho, fetchKeysStep, hko] at hok
            | resp kok kbody =>
              cases kok with
              | false =>
                simp [authBody, houb, hp, ho, fetchKeysStep, hko] at hok
              | true =>
                cases hf : jsFalsyStr kbody.api_key with
                | true =>
                  simp [authBody, houb, hp, ho, fetchKeysStep, hko, hf] at hok
                | false =>
                  simp [authBody, houb, hp, ho, fetchKeysStep, hko, hf] at hok
                  subst hok
                  exact ⟨rfl, hf⟩
          }

theorem authenticateWithUat_some (env : AuthEnv) (k : UatKeyResponse)
    (h : authenticateWithUat env = some k) : (authBody env).1 = .ok k := by
  unfold authenticateWithUat at h
  cases hb : (authBody env).1 with
  | ok k2 =>
    rw [hb] at h
    simp at h
    subst h
    rfl
  | error e =>
    rw [hb] at h
    simp at h

/-- C4 counterexample: a run whose `get_keys` response omits `org_key`
entirely but carries `api_key = "ak"` still returns a non-null (partial)
record, contradicting the claim that a missing `org_key` forces a null
return. -/
theorem C4_missing_org_key_not_null :
    envNoOrgKey.keysOutcome
      = FetchOutcome.resp true { org_key := none, api_key := some "ak" }
    ∧ authenticateWithUat envNoOrgKey
      = some { org_key := none, api_key := some "ak" } := by
  refine ⟨rfl, ?_⟩
  simp [authenticateWithUat, authBody, envNoOrgKey,
    pollLoop_immediate_confirm, fetchKeysStep, jsFalsyStr]
  decide

/-- C4 as amended: `authenticateWithUat` returns a non-null record only if
the response's `api_key` is present and non-empty — in particular a
`get_keys` response omitting or emptying `api_key` forces a null return
even when `org_key` is present — but `org_key` is never validated: it is
not required for a non-null return. -/
theorem C4_api_key_checked_org_key_not (env : AuthEnv) :
    (∀ k : UatKeyResponse, authenticateWithUat env = some k →
        jsFalsyStr k.api_key = false)
    ∧ (∀ body : UatKeyResponse, env.keysOutcome = .resp true body →
        jsFalsyStr body.api_key = true → authenticateWithUat env = none) := by
  constructor
  · intro k hk
    exact (authBody_ok_characterization env k
      (authenticateWithUat_some env k hk)).2
  · intro body hko hf
    cases ha : authenticateWithUat env with
    | none => rfl
    | some k =>
      exfalso
      have hchar := authBody_ok_characterization env k
        (authenticateWithUat_some env k ha)
      rw [hko] at hchar
      obtain ⟨heq, hfk⟩ := hchar
      cases heq
      rw [hf] at hfk
      cases hfk

/-- C4 amended-claim witness: the two-organization run succeeds, and its
returned record indeed has a truthy `api_key`. -/
theorem C4_api_key_checked_org_key_not_witness :
    jsFalsyStr (UatKeyResponse.mk (some "ok1") (some "ak1")).api_key
      = false :=
  (C4_api_key_checked_org_key_not envTwoOrgs).1 ⟨some "ok1", some "ak1"⟩
    (by
      simp [authenticateWithUat, authBody, envTwoOrgs,
        pollLoop_immediate_confirm, fetchKeysStep, jsFalsyStr]
      decide)

/-- C9 witness: in the two-organization run the `get_orgs` request (both
of whose tokens encode empty byte material under the concrete environment)
is in the trace, and its `verify_token` is the base64url-encoded first
verifier. -/
theorem C9_verifier_never_with_own_challenge_witness :
    (GetOrgsRequest.mk "" "").verify_token
      = base64urlOfAscii (hexEncode envTwoOrgs.rand1) := by
  have hmem : AuthEvent.getOrgs ⟨"", ""⟩ ∈ authTrace envTwoOrgs := by
    simp [authTrace, authBody, envTwoOrgs, pollLoop_immediate_confirm,
      fetchKeysStep_snd, createVerifierAndChallenge, hexEncode, hexChars,
      base64urlOfAscii, b64UrlChunks]
  exact ((C9_verifier_never_with_own_challenge envTwoOrgs).1 ⟨"", ""⟩ hmem).1
